import Mathlib

/-!
Verification of the `chainer_mnist_local_mode.ipynb` notebook
(repository `amazon-sagemaker-examples`, directory
`sagemaker-python-sdk/chainer_mnist`).

The notebook is a linear sequence of cells calling external SDKs.  We embed
it as a trace-producing program: every external Python call that can raise
an exception is a `Call`, an oracle decides for each call whether it raises
(and with which exception), and `runNotebook` produces the list of observable
events together with the final outcome (normal completion or a propagated
exception).  Pure computations of the notebook (argmax label extraction,
`str.replace` on the artifact URI, `random.sample` index selection, the
`nvidia-smi` based instance-type choice) are embedded as Lean functions.
-/

namespace ChainerMnist

/-- Python exception values relevant to the notebook.  `osErrorExist` is an
`OSError` with errno `EEXIST` ("directory already exists"), `osErrorPerm` an
`OSError` with errno `EACCES` (permission denied), `osErrorOther` any other
`OSError`; the remaining constructors are exceptions that are not `OSError`. -/
inductive PyErr where
  | osErrorExist
  | osErrorPerm
  | osErrorOther
  | valueError
  | indexError
  | otherError
deriving DecidableEq, Fintype

instance {ε β : Type*} [DecidableEq ε] [DecidableEq β] : DecidableEq (Except ε β) := fun a b =>
  match a, b with
  | .ok x, .ok y =>
    if h : x = y then isTrue (by rw [h]) else isFalse (fun hc => h (by injection hc))
  | .error x, .error y =>
    if h : x = y then isTrue (by rw [h]) else isFalse (fun hc => h (by injection hc))
  | .ok _, .error _ => isFalse (fun hc => Except.noConfusion hc)
  | .error _, .ok _ => isFalse (fun hc => Except.noConfusion hc)

/-- Whether a Python exception is an instance of `OSError`; this is exactly
the test performed by the `except OSError:` clause in cell-15. -/
def isOSError : PyErr → Bool
  | .osErrorExist => true
  | .osErrorPerm => true
  | .osErrorOther => true
  | _ => false

/-- The fallible external Python calls made by the notebook, in the order in
which they appear: `chainer.datasets.get_mnist()` (cell-5), the two
`os.makedirs`, two `np.savez` and two `sagemaker_session.upload_data` calls
of the staging cell (cell-7), `chainer_estimator.fit` (cell-13),
`os.makedirs('output/single_machine_mnist')` and `describe_training_job`
(cell-15), `chainer_estimator.deploy` (cell-19), the two `predictor.predict`
calls (cell-23 and cell-27), and `chainer_estimator.delete_endpoint`
(cell-29). -/
inductive Call where
  | getMnist
  | mkdirTrain
  | mkdirTest
  | savezTrain
  | savezTest
  | uploadTrain
  | uploadTest
  | fit
  | mkdirOutput
  | describeJob
  | deploy
  | predictBatch
  | predictSingle
  | deleteEndpoint
deriving DecidableEq, Fintype

/-- Observable events of a notebook run: an external call being issued, the
`shutil.rmtree` of the `finally` clause in cell-7, the `subprocess.call` of
`nvidia-smi` and the construction of the `Chainer` estimator with a given
`train_instance_type` (cell-11), the shell `aws s3 cp` and `tar -xzvf`
invocations and the image display (cells 15 and 17), and the sampling,
plotting and drawing steps of cells 21 and 25. -/
inductive Ev where
  | call (c : Call)
  | rmtree (path : String)
  | nvidiaSmi
  | constructEstimator (instType : String)
  | s3cp
  | tarExtract
  | displayGraphs
  | sampleIndices
  | plotImages
  | drawWidget
deriving DecidableEq, BEq

/-- An oracle assigns to each fallible external call either `none` (the call
succeeds) or `some e` (the call raises exception `e`). -/
def Oracle : Type := Call → Option PyErr

/-- The oracle under which every external call succeeds. -/
def allOk : Oracle := fun _ => none

/-- The oracle under which exactly the call `c` raises `e` and every other
call succeeds. -/
def failAt (c : Call) (e : PyErr) : Oracle :=
  fun c' => if c' = c then some e else none

/-- Sequencing of two trace-producing program fragments: if the first
fragment raises, the second is not executed and the exception propagates. -/
def seqR (a b : List Ev × Except PyErr Unit) : List Ev × Except PyErr Unit :=
  match a with
  | (tr, .error e) => (tr, .error e)
  | (tr, .ok _) => (tr ++ b.1, b.2)

/-- Issue one fallible external call under an oracle: the call event is
recorded, and the outcome is the oracle's verdict for the call. -/
def callEv (oracle : Oracle) (c : Call) : List Ev × Except PyErr Unit :=
  ([Ev.call c],
   match oracle c with
   | some e => .error e
   | none => .ok ())

/-- The body of the `try` block of cell-7: create the two staging
directories, serialize the train and test arrays with `np.savez`, and
upload each of the two directories with `sagemaker_session.upload_data`. -/
def stagingBody (oracle : Oracle) : List Ev × Except PyErr Unit :=
  seqR (callEv oracle .mkdirTrain)
    (seqR (callEv oracle .mkdirTest)
      (seqR (callEv oracle .savezTrain)
        (seqR (callEv oracle .savezTest)
          (seqR (callEv oracle .uploadTrain)
            (callEv oracle .uploadTest)))))

/-- Cell-7 of the notebook: the `try` body followed by the `finally` clause
`shutil.rmtree('/tmp/data')`.  The `finally` clause runs whether the body
completed normally or raised, and a raised exception still propagates after
the cleanup. -/
def staging (oracle : Oracle) : List Ev × Except PyErr Unit :=
  ((stagingBody oracle).1 ++ [Ev.rmtree "/tmp/data"], (stagingBody oracle).2)

/-- The exit code returned by `subprocess.call('nvidia-smi')` in cell-11,
as a function of whether a GPU (and the `nvidia-smi` binary) is present:
`0` on success, a nonzero code otherwise. -/
def nvidiaCode (gpu : Bool) : Int :=
  if gpu then 0 else 1

/-- The `train_instance_type` chosen in cell-11: initialised to `'local'`
and reassigned to `'local_gpu'` when `subprocess.call('nvidia-smi')`
returned `0`. -/
def instanceType (code : Int) : String :=
  if code = 0 then "local_gpu" else "local"

/-- Cell-15's guarded `os.makedirs('output/single_machine_mnist')`: the
`except OSError: pass` handler suppresses the exception when it is an
`OSError` and lets any other exception propagate. -/
def mkdirOutputStep (oracle : Oracle) : List Ev × Except PyErr Unit :=
  ([Ev.call .mkdirOutput],
   match oracle Call.mkdirOutput with
   | some e => if isOSError e then .ok () else .error e
   | none => .ok ())

/-- The whole notebook, run top to bottom under an oracle for the external
calls, with `gpu` recording whether `subprocess.call('nvidia-smi')` returns
`0`: dataset download (cell-5), data staging with its `finally` cleanup
(cell-7), instance-type selection and estimator construction (cell-11),
`fit` (cell-13), guarded output-directory creation, `describe_training_job`
and the artifact-download shell commands (cell-15), plot display (cell-17),
`deploy` (cell-19), index sampling and plotting (cell-21), the batch
`predict` (cell-23), the drawing widget (cell-25), the single `predict`
(cell-27), and `delete_endpoint` (cell-29). -/
def runNotebook (gpu : Bool) (oracle : Oracle) : List Ev × Except PyErr Unit :=
  seqR (callEv oracle .getMnist)
    (seqR (staging oracle)
      (seqR ([Ev.nvidiaSmi, Ev.constructEstimator (instanceType (nvidiaCode gpu))], .ok ())
        (seqR (callEv oracle .fit)
          (seqR (mkdirOutputStep oracle)
            (seqR (callEv oracle .describeJob)
              (seqR ([Ev.s3cp, Ev.tarExtract, Ev.displayGraphs], .ok ())
                (seqR (callEv oracle .deploy)
                  (seqR ([Ev.sampleIndices, Ev.plotImages], .ok ())
                    (seqR (callEv oracle .predictBatch)
                      (seqR ([Ev.drawWidget], .ok ())
                        (seqR (callEv oracle .predictSingle)
                          (callEv oracle .deleteEndpoint))))))))))))

/-- The notebook's event trace when every external call succeeds. -/
def fullTrace (gpu : Bool) : List Ev :=
  (runNotebook gpu allOk).1

/-- Index of the first occurrence of an event in a trace (the trace length
when the event does not occur). -/
def posOf (tr : List Ev) (e : Ev) : Nat :=
  tr.findIdx (fun x => x == e)

/-- The external SDK calls named by the spec sentence about unhandled
failures: `upload_data`, `fit`, `describe_training_job`, `deploy`, the two
`predict` calls and `delete_endpoint`. -/
def sdkCalls : List Call :=
  [.uploadTrain, .uploadTest, .fit, .describeJob, .deploy,
   .predictBatch, .predictSingle, .deleteEndpoint]

/-- Number of `np.savez` serialization calls recorded in a trace. -/
def countSavez (tr : List Ev) : Nat :=
  (tr.filter fun e => e == Ev.call .savezTrain || e == Ev.call .savezTest).length

/-- Number of `sagemaker_session.upload_data` calls recorded in a trace. -/
def countUpload (tr : List Ev) : Nat :=
  (tr.filter fun e => e == Ev.call .uploadTrain || e == Ev.call .uploadTest).length

/-- The notebook events that precede the estimator construction, on a run
where every external call succeeds; they do not depend on the `nvidia-smi`
probe. -/
def preGpuTrace : List Ev :=
  [Ev.call .getMnist, Ev.call .mkdirTrain, Ev.call .mkdirTest,
   Ev.call .savezTrain, Ev.call .savezTest, Ev.call .uploadTrain,
   Ev.call .uploadTest, Ev.rmtree "/tmp/data", Ev.nvidiaSmi]

/-- The notebook events that follow the estimator construction, on a run
where every external call succeeds; they do not depend on the `nvidia-smi`
probe. -/
def postGpuTrace : List Ev :=
  [Ev.call .fit, Ev.call .mkdirOutput, Ev.call .describeJob, Ev.s3cp,
   Ev.tarExtract, Ev.displayGraphs, Ev.call .deploy, Ev.sampleIndices,
   Ev.plotImages, Ev.call .predictBatch, Ev.drawWidget,
   Ev.call .predictSingle, Ev.call .deleteEndpoint]

section ArgmaxDefs

variable {α : Type*} [LinearOrder α]

/-- Index of the first occurrence of the maximum in the nonempty list
`b :: xs` (the tie-breaking rule of `numpy.argmax`: in case of multiple
occurrences of the maximum value, the first index is returned). -/
def argmaxNE (b : α) (xs : List α) : Nat :=
  match xs with
  | [] => 0
  | x :: xs' => if b < xs'.foldl max x then argmaxNE x xs' + 1 else 0

/-- The `argmax` method of a 1-D numpy array: it raises `ValueError` on an
empty array and otherwise returns the index of the first occurrence of the
maximum value. -/
def np_argmax (l : List α) : Except PyErr Nat :=
  match l with
  | [] => .error .valueError
  | b :: xs => .ok (argmaxNE b xs)

/-- The property the notebook's label extraction is meant to have: `j` is a
valid index into `row` and the value at `j` is a maximum of `row`. -/
def attainsMax (row : List α) (j : Nat) : Prop :=
  ∃ hj : j < row.length, ∀ k (hk : k < row.length),
    row.get ⟨k, hk⟩ ≤ row.get ⟨j, hj⟩

/-- Row-wise application of a fallible function, mirroring how
`prediction.argmax(axis=1)` computes one index per row of a 2-D array and
fails when a row is empty. -/
def mapExcept (f : List α → Except PyErr Nat) : List (List α) → Except PyErr (List Nat)
  | [] => .ok []
  | r :: rs =>
    match f r with
    | .error e => .error e
    | .ok j =>
      match mapExcept f rs with
      | .error e => .error e
      | .ok js => .ok (j :: js)

/-- Cell-23 of the notebook: `predicted_label = prediction.argmax(axis=1)`,
one label per sampled test image. -/
def predictedLabels (pred : List (List α)) : Except PyErr (List Nat) :=
  mapExcept np_argmax pred

/-- Cell-27 of the notebook:
`predicted_label = prediction.argmax(axis=1)[0]`; Python indexing raises
`IndexError` when the array is empty. -/
def predictedLabelSingle (pred : List (List α)) : Except PyErr Nat :=
  match predictedLabels pred with
  | .error e => .error e
  | .ok [] => .error .indexError
  | .ok (j :: _) => .ok j

end ArgmaxDefs

/-- The pattern `'model'` of the `str.replace` call in cell-15, as a list of
characters. -/
def modelPat : List Char := ['m', 'o', 'd', 'e', 'l']

/-- The replacement `'output'` of the `str.replace` call in cell-15, as a
list of characters. -/
def outputRep : List Char := ['o', 'u', 't', 'p', 'u', 't']

/-- Python `str.replace('model', 'output')` on a string given as a list of
characters: scan left to right, replacing every non-overlapping occurrence
of `'model'` by `'output'` and continuing after the replaced text. -/
def replaceModel : List Char → List Char
  | [] => []
  | c :: cs =>
    if modelPat.isPrefixOf (c :: cs) then
      outputRep ++ replaceModel (cs.drop 4)
    else
      c :: replaceModel cs
termination_by l => l.length
decreasing_by
  all_goals simp [List.length_drop]
  omega

/-- Cell-15 of the notebook:
`output_data = desc['ModelArtifacts']['S3ModelArtifacts'].replace('model', 'output')`. -/
def outputDataOf (s3ModelArtifacts : List Char) : List Char :=
  replaceModel s3ModelArtifacts

/-- Join a list of pieces with a fixed separator between consecutive pieces:
`joinSep sep [p, q, r] = p ++ sep ++ q ++ sep ++ r`. -/
def joinSep (sep : List Char) : List (List Char) → List Char
  | [] => []
  | [p] => p
  | p :: ps => p ++ sep ++ joinSep sep ps

/-- One selection pass of `random.sample`: the first argument of the match
is the number of elements still to draw, the second the remaining
population; `choice` stands for the pseudo-random source, picking (modulo
the current pool size) the position of the next drawn element, which is then
removed from the pool so that sampling is without replacement. -/
def sampleAux (choice : Nat → Nat) : Nat → List Nat → List Nat
  | 0, _ => []
  | _ + 1, [] => []
  | k + 1, p :: ps =>
    (p :: ps).getD (choice k % (p :: ps).length) 0 ::
      sampleAux choice k ((p :: ps).eraseIdx (choice k % (p :: ps).length))

/-- Python `random.sample(population, k)`: it raises `ValueError` when `k`
exceeds the population size and otherwise returns `k` distinct elements of
the population, drawn without replacement. -/
def pySample (pop : List Nat) (k : Nat) (choice : Nat → Nat) : Except PyErr (List Nat) :=
  if pop.length < k then .error .valueError
  else .ok (sampleAux choice k pop)

/-- Cell-21 of the notebook:
`indices = random.sample(range(test_images.shape[0] - 1), num_samples)`
with `num_samples = 5`. -/
def sampleTestIndices (numTestImages : Nat) (choice : Nat → Nat) : Except PyErr (List Nat) :=
  pySample (List.range (numTestImages - 1)) 5 choice

/-- A deterministic stand-in for the random source, always picking the first
remaining element. -/
def zeroChoice : Nat → Nat := fun _ => 0

section ArgmaxLemmas

variable {α : Type*} [LinearOrder α]

theorem foldl_max_mem (xs : List α) (x : α) : xs.foldl max x ∈ x :: xs := by
  induction xs generalizing x with
  | nil => simp
  | cons y ys ih =>
    have h := ih (max x y)
    have hstep : (y :: ys).foldl max x = ys.foldl max (max x y) := rfl
    rw [hstep]
    rcases List.mem_cons.mp h with h1 | h1
    · rw [h1]
      rcases max_choice x y with h2 | h2 <;> rw [h2] <;> simp
    · exact List.mem_cons.mpr (Or.inr (List.mem_cons.mpr (Or.inr h1)))

theorem seed_le_foldl_max (xs : List α) (x : α) : x ≤ xs.foldl max x := by
  induction xs generalizing x with
  | nil => exact le_refl _
  | cons z zs ih =>
    exact le_trans (le_max_left x z) (ih (max x z))

theorem le_foldl_max (xs : List α) (x y : α) (hy : y ∈ x :: xs) :
    y ≤ xs.foldl max x := by
  induction xs generalizing x with
  | nil =>
    have h : y = x := by simpa using hy
    simp [h]
  | cons z zs ih =>
    have hstep : (z :: zs).foldl max x = zs.foldl max (max x z) := rfl
    rw [hstep]
    rcases List.mem_cons.mp hy with h1 | h1
    · subst h1
      exact le_trans (le_max_left y z) (seed_le_foldl_max zs _)
    · rcases List.mem_cons.mp h1 with h2 | h2
      · subst h2
        exact le_trans (le_max_right x y) (seed_le_foldl_max zs _)
      · exact ih (max x z) (List.mem_cons.mpr (Or.inr h2))

theorem argmaxNE_lt (b : α) (xs : List α) : argmaxNE b xs < xs.length + 1 := by
  induction xs generalizing b with
  | nil => simp [argmaxNE]
  | cons x xs' ih =>
    rw [argmaxNE]
    split
    · simpa using Nat.succ_lt_succ (ih x)
    · simp

theorem argmaxNE_spec (b : α) (xs : List α) :
    ∀ k (hk : k < xs.length + 1),
      (b :: xs).get ⟨k, by simpa using hk⟩ ≤
        (b :: xs).get ⟨argmaxNE b xs, by simpa using argmaxNE_lt b xs⟩ := by
  induction xs generalizing b with
  | nil =>
    intro k hk
    match k, hk with
    | 0, _ => exact le_refl _
    | k' + 1, hk => exact absurd hk (by simp)
  | cons x xs' ih =>
    intro k hk
    by_cases h : b < xs'.foldl max x
    · have harg : argmaxNE b (x :: xs') = argmaxNE x xs' + 1 := by
        rw [argmaxNE]; simp [h]
      have hV : (b :: x :: xs').get ⟨argmaxNE b (x :: xs'), by simpa using argmaxNE_lt b (x :: xs')⟩ =
          (x :: xs').get ⟨argmaxNE x xs', by simpa using argmaxNE_lt x xs'⟩ := by
        simp only [harg]
        rfl
      rw [hV]
      match k, hk with
      | 0, _ =>
        have hmem := foldl_max_mem xs' x
        rcases List.mem_iff_get.mp hmem with ⟨i, hi⟩
        have := ih x i.1 (by simpa using i.2)
        calc (b :: x :: xs').get ⟨0, by simp⟩ = b := rfl
          _ ≤ xs'.foldl max x := le_of_lt h
          _ = (x :: xs').get ⟨i.1, by simpa using i.2⟩ := by rw [← hi]
          _ ≤ _ := this
      | k' + 1, hk =>
        exact ih x k' (by simpa using hk)
    · have harg : argmaxNE b (x :: xs') = 0 := by
        rw [argmaxNE]; simp [h]
      have hV : (b :: x :: xs').get ⟨argmaxNE b (x :: xs'), by simpa using argmaxNE_lt b (x :: xs')⟩ = b := by
        simp only [harg]
        rfl
      rw [hV]
      match k, hk with
      | 0, _ => exact le_refl _
      | k' + 1, hk =>
        have hget : (b :: x :: xs').get ⟨k' + 1, by simpa using hk⟩ =
            (x :: xs').get ⟨k', by simpa using hk⟩ := rfl
        rw [hget]
        exact le_trans
          (le_foldl_max xs' x _ (List.get_mem (x :: xs') k' (by simpa using hk)))
          (le_of_not_lt h)

theorem np_argmax_ok {row : List α} {j : Nat} (h : np_argmax row = .ok j) :
    attainsMax row j := by
  match row with
  | [] => simp [np_argmax] at h
  | b :: xs =>
    have hj : j = argmaxNE b xs := by
      simpa [np_argmax] using h.symm
    subst hj
    exact ⟨by simpa using argmaxNE_lt b xs,
      fun k hk => argmaxNE_spec b xs k (by simpa using hk)⟩

theorem mapExcept_ok {f : List α → Except PyErr Nat} :
    ∀ {rs : List (List α)} {js : List Nat}, mapExcept f rs = .ok js →
      js.length = rs.length ∧
      ∀ i (hi : i < js.length) (hp : i < rs.length),
        f (rs.get ⟨i, hp⟩) = .ok (js.get ⟨i, hi⟩) := by
  intro rs
  induction rs with
  | nil =>
    intro js h
    have : js = [] := by simpa [mapExcept] using h.symm
    subst this
    exact ⟨rfl, fun i hi => by simp at hi⟩
  | cons r rs' ih =>
    intro js h
    rw [mapExcept] at h
    match hf : f r with
    | .error e => rw [hf] at h; exact absurd h (by simp)
    | .ok j =>
      rw [hf] at h
      match hm : mapExcept f rs' with
      | .error e => rw [hm] at h; exact absurd h (by simp)
      | .ok js' =>
        rw [hm] at h
        have hjs : js = j :: js' := by simpa using h.symm
        subst hjs
        obtain ⟨hlen, hall⟩ := ih hm
        refine ⟨by simpa using hlen, ?_⟩
        intro i hi hp
        match i with
        | 0 => simpa using hf
        | i' + 1 =>
          exact hall i' (by simpa using hi) (by simpa using hp)

end ArgmaxLemmas

theorem modelPat_head {c : Char} {cs : List Char}
    (h : modelPat.isPrefixOf (c :: cs) = true) : c = 'm' := by
  simp [modelPat, List.isPrefixOf] at h
  exact h.1.symm

theorem replaceModel_of_not_mem : ∀ {l : List Char}, 'm' ∉ l → replaceModel l = l := by
  intro l
  induction l with
  | nil => intro _; rw [replaceModel]
  | cons c cs ih =>
    intro h
    rw [replaceModel]
    have hc : ¬ modelPat.isPrefixOf (c :: cs) = true := by
      intro hpre
      exact h (modelPat_head hpre ▸ List.mem_cons_self c cs)
    rw [if_neg hc, ih (fun hm => h (List.mem_cons.mpr (Or.inr hm)))]

theorem replaceModel_append (t : List Char) :
    ∀ (s : List Char), 'm' ∉ s →
      replaceModel (s ++ modelPat ++ t) = s ++ outputRep ++ replaceModel t := by
  intro s
  induction s with
  | nil =>
    intro _
    have hshape : ([] : List Char) ++ modelPat ++ t = 'm' :: ('o' :: 'd' :: 'e' :: 'l' :: t) := by
      simp [modelPat]
    rw [hshape, replaceModel]
    have hpre : modelPat.isPrefixOf ('m' :: 'o' :: 'd' :: 'e' :: 'l' :: t) = true := by
      simp [modelPat, List.isPrefixOf]
    rw [if_pos hpre]
    have hdrop : ('o' :: 'd' :: 'e' :: 'l' :: t).drop 4 = t := rfl
    rw [hdrop]
    simp
  | cons a s' ih =>
    intro h
    have ha : a ≠ 'm' := fun he => h (he ▸ List.mem_cons_self a s')
    have hs' : 'm' ∉ s' := fun hm => h (List.mem_cons.mpr (Or.inr hm))
    have hshape : (a :: s') ++ modelPat ++ t = a :: (s' ++ modelPat ++ t) := by simp
    rw [hshape, replaceModel]
    have hc : ¬ modelPat.isPrefixOf (a :: (s' ++ modelPat ++ t)) = true := by
      intro hpre
      exact ha (modelPat_head hpre)
    rw [if_neg hc, ih hs']
    simp

theorem sampleAux_subset (choice : Nat → Nat) :
    ∀ (k : Nat) (pool : List Nat) (x : Nat), x ∈ sampleAux choice k pool → x ∈ pool := by
  intro k
  induction k with
  | zero => intro pool x hx; simp [sampleAux] at hx
  | succ k' ih =>
    intro pool x hx
    match pool with
    | [] => simp [sampleAux] at hx
    | p :: ps =>
      rw [sampleAux] at hx
      have hlen : choice k' % (p :: ps).length < (p :: ps).length :=
        Nat.mod_lt _ (by simp)
      rcases List.mem_cons.mp hx with h1 | h1
      · rw [h1, List.getD_eq_get _ _ hlen]
        exact List.get_mem _ _ _
      · exact (List.eraseIdx_sublist (p :: ps) _).mem (ih _ x h1)

theorem sampleAux_nodup (choice : Nat → Nat) :
    ∀ (k : Nat) (pool : List Nat), pool.Nodup → (sampleAux choice k pool).Nodup := by
  intro k
  induction k with
  | zero => intro pool _; simp [sampleAux]
  | succ k' ih =>
    intro pool hn
    match pool with
    | [] => simp [sampleAux]
    | p :: ps =>
      rw [sampleAux]
      have hlen : choice k' % (p :: ps).length < (p :: ps).length :=
        Nat.mod_lt _ (by simp)
      refine List.nodup_cons.mpr ⟨?_, ih _ ((List.eraseIdx_sublist (p :: ps) _).nodup hn)⟩
      intro hmem
      have hmem2 : (p :: ps).getD (choice k' % (p :: ps).length) 0 ∈
          (p :: ps).eraseIdx (choice k' % (p :: ps).length) :=
        sampleAux_subset choice k' _ _ hmem
      rw [List.getD_eq_get _ _ hlen] at hmem2
      rw [List.get_eq_getElem] at hmem2
      obtain ⟨j, hj, hje, hjv⟩ := List.mem_eraseIdx_iff_getElem.mp hmem2
      exact hje ((List.Nodup.getElem_inj_iff hn).mp hjv)

theorem sampleAux_length (choice : Nat → Nat) :
    ∀ (k : Nat) (pool : List Nat), k ≤ pool.length → (sampleAux choice k pool).length = k := by
  intro k
  induction k with
  | zero => intro pool _; simp [sampleAux]
  | succ k' ih =>
    intro pool hk
    match pool with
    | [] => simp at hk
    | p :: ps =>
      rw [sampleAux]
      have hlen : choice k' % (p :: ps).length < (p :: ps).length :=
        Nat.mod_lt _ (by simp)
      have herase : ((p :: ps).eraseIdx (choice k' % (p :: ps).length)).length =
          (p :: ps).length - 1 := by
        rw [List.length_eraseIdx, if_pos hlen]
      have hk' : k' ≤ ((p :: ps).eraseIdx (choice k' % (p :: ps).length)).length := by
        rw [herase]
        omega
      rw [List.length_cons, ih _ hk']

/-- C1: during data staging (cell-7), the `finally` clause executes
`shutil.rmtree('/tmp/data')` for every outcome of the directory-creation,
serialization and upload calls inside the `try` block: under every oracle,
the staging trace contains the removal of `/tmp/data`, and that removal is
the last staging action, so no temporary staging files survive. -/
theorem c1_staging_always_removes_tmp_data :
    ∀ oracle : Oracle,
      Ev.rmtree "/tmp/data" ∈ (staging oracle).1 ∧
      (staging oracle).1.getLast? = some (Ev.rmtree "/tmp/data") := by
  intro oracle
  constructor
  · simp only [staging]
    exact List.mem_append_right _ (List.mem_singleton.mpr rfl)
  · simp only [staging]
    exact List.getLast?_concat _

/-- C2: every predicted label produced by the notebook is the index of a
maximum entry of the corresponding prediction row: the batch labels of
cell-23 (`prediction.argmax(axis=1)`) each attain the maximum of their row,
and the single label of cell-27 (`prediction.argmax(axis=1)[0]`) attains
the maximum of the first row. -/
theorem c2_predicted_labels_argmax {α : Type*} [LinearOrder α] :
    ∀ (pred : List (List α)) (labels : List Nat),
      predictedLabels pred = .ok labels →
        labels.length = pred.length ∧
        (∀ i (hi : i < labels.length) (hp : i < pred.length),
          attainsMax (pred.get ⟨i, hp⟩) (labels.get ⟨i, hi⟩)) ∧
        (∀ j, predictedLabelSingle pred = .ok j → attainsMax (pred.headD []) j) := by
  intro pred labels h
  obtain ⟨hlen, hall⟩ := mapExcept_ok h
  refine ⟨hlen, fun i hi hp => np_argmax_ok (hall i hi hp), ?_⟩
  intro j hj
  unfold predictedLabelSingle at hj
  rw [h] at hj
  cases labels with
  | nil => exact absurd hj (by simp)
  | cons l0 rest =>
    have hj0 : l0 = j := by simpa using hj
    subst hj0
    cases pred with
    | nil => simp at hlen
    | cons r ps =>
      have h0 := np_argmax_ok (hall 0 (by simp) (by simp))
      exact h0

/-- Witness for C2 at a concrete two-row prediction array. -/
theorem c2_witness :
    predictedLabels [[(1 : Int), 3, 2], [2, 2, 5]] = .ok [1, 2] ∧
    attainsMax [(1 : Int), 3, 2] 1 := by
  have h : predictedLabels [[(1 : Int), 3, 2], [2, 2, 5]] = .ok [1, 2] := by rfl
  exact ⟨h, (c2_predicted_labels_argmax _ _ h).2.1 0 (by decide) (by decide)⟩

/-- C3 as stated is refuted: the `except OSError: pass` around
`os.makedirs('output/single_machine_mnist')` does not suppress only
"already exists" errors.  At the concrete input where that `makedirs`
raises a permission `OSError` (`EACCES`), the exception is suppressed and
the notebook continues and completes normally, instead of propagating. -/
theorem c3_counterexample :
    (runNotebook true (failAt Call.mkdirOutput PyErr.osErrorPerm)).2 = .ok () ∧
    ((runNotebook true (failAt Call.mkdirOutput PyErr.osErrorPerm)).1.count
      (Ev.call Call.describeJob)) = 1 := by
  decide

/-- C3 amended: the single exception suppression around the creation of the
output directory suppresses every `OSError` (including permission errors,
not only "already exists"), and only exceptions that are not `OSError`
propagate from that directory creation. -/
theorem c3_makedirs_suppresses_all_oserror :
    ∀ (gpu : Bool) (e : PyErr),
      (runNotebook gpu (failAt Call.mkdirOutput e)).2 =
        (if isOSError e then .ok () else .error e) := by
  decide

/-- C4: for every external SDK call of the notebook (`upload_data`, `fit`,
`describe_training_job`, `deploy`, both `predict` calls, and
`delete_endpoint`), when that call raises, the exception propagates
unhandled to the notebook user (the run ends with that error), and the call
is issued exactly once (no retry). -/
theorem c4_sdk_errors_propagate :
    ∀ (gpu : Bool) (c : Call) (e : PyErr), c ∈ sdkCalls →
      (runNotebook gpu (failAt c e)).2 = .error e ∧
      ((runNotebook gpu (failAt c e)).1.count (Ev.call c)) = 1 := by
  decide

/-- Witness for C4: a `fit` failure with a `ValueError` propagates. -/
theorem c4_witness :
    (runNotebook true (failAt Call.fit PyErr.valueError)).2 = .error PyErr.valueError ∧
    ((runNotebook true (failAt Call.fit PyErr.valueError)).1.count (Ev.call Call.fit)) = 1 :=
  c4_sdk_errors_propagate true Call.fit PyErr.valueError (by decide)

/-- C5: on a run where every call succeeds (either with or without a GPU),
the notebook's operations occur in the spec's fixed order: the dataset is
fetched before serialization and upload, serialization precedes upload, the
estimator is constructed and fit before the artifact download and before
any display, deploy happens only after fit, every predict call happens
after deploy, and `delete_endpoint` is the final operation, after all
predict calls. -/
theorem c5_step_order :
    ∀ gpu : Bool,
      posOf (fullTrace gpu) (Ev.call .getMnist) < posOf (fullTrace gpu) (Ev.call .savezTrain) ∧
      posOf (fullTrace gpu) (Ev.call .getMnist) < posOf (fullTrace gpu) (Ev.call .savezTest) ∧
      posOf (fullTrace gpu) (Ev.call .savezTrain) < posOf (fullTrace gpu) (Ev.call .uploadTrain) ∧
      posOf (fullTrace gpu) (Ev.call .savezTest) < posOf (fullTrace gpu) (Ev.call .uploadTest) ∧
      posOf (fullTrace gpu) (Ev.constructEstimator (instanceType (nvidiaCode gpu))) <
        posOf (fullTrace gpu) (Ev.call .fit) ∧
      posOf (fullTrace gpu) (Ev.call .fit) < posOf (fullTrace gpu) Ev.s3cp ∧
      posOf (fullTrace gpu) (Ev.call .fit) < posOf (fullTrace gpu) Ev.tarExtract ∧
      posOf (fullTrace gpu) (Ev.call .fit) < posOf (fullTrace gpu) Ev.displayGraphs ∧
      posOf (fullTrace gpu) (Ev.call .fit) < posOf (fullTrace gpu) (Ev.call .deploy) ∧
      posOf (fullTrace gpu) (Ev.call .deploy) < posOf (fullTrace gpu) (Ev.call .predictBatch) ∧
      posOf (fullTrace gpu) (Ev.call .deploy) < posOf (fullTrace gpu) (Ev.call .predictSingle) ∧
      posOf (fullTrace gpu) (Ev.call .predictBatch) < posOf (fullTrace gpu) (Ev.call .deleteEndpoint) ∧
      posOf (fullTrace gpu) (Ev.call .predictSingle) < posOf (fullTrace gpu) (Ev.call .deleteEndpoint) ∧
      (fullTrace gpu).getLast? = some (Ev.call .deleteEndpoint) := by
  decide

/-- C6 as stated is refuted: the data-staging step does not serialize a
single file nor make a single upload call.  On the run where every call
succeeds, the staging trace of cell-7 records two `np.savez` serialization
calls and two `upload_data` calls, not one of each. -/
theorem c6_counterexample :
    ¬ (countSavez (staging allOk).1 = 1 ∧ countUpload (staging allOk).1 = 1) := by
  decide

/-- C6 amended: the data-staging step serializes the dataset arrays to two
local files (`train.npz` and `test.npz`) and makes two
`sagemaker_session.upload_data` calls, one per staged directory. -/
theorem c6_two_files_two_uploads :
    countSavez (staging allOk).1 = 2 ∧ countUpload (staging allOk).1 = 2 := by
  decide

/-- C7 as stated is refuted: the notebook's behaviour is not free of
repository-level conditionals.  The run with `subprocess.call('nvidia-smi')`
returning `0` produces a different event trace from the run where it does
not, because cell-11 branches on that call's return code. -/
theorem c7_counterexample :
    ¬ ((runNotebook true allOk).1 = (runNotebook false allOk).1) := by
  decide

/-- C7 amended: every step of the notebook other than the estimator
configuration of cell-11 is conditional-free: on a fully successful run the
trace is a fixed prefix and a fixed suffix that do not depend on the
`nvidia-smi` probe, with the only probe-dependent event being the
construction of the estimator with `instanceType` of the probe's return
code. -/
theorem c7_only_instance_type_branches :
    ∀ gpu : Bool,
      (runNotebook gpu allOk).1 =
        preGpuTrace ++ Ev.constructEstimator (instanceType (nvidiaCode gpu)) :: postGpuTrace := by
  decide

/-- C8: the `train_instance_type` handed to the `Chainer` estimator is
always one of the two strings `'local'` and `'local_gpu'`, and it is
`'local_gpu'` exactly when `subprocess.call('nvidia-smi')` returned `0`. -/
theorem c8_instance_type_local :
    ∀ code : Int,
      (instanceType code = "local_gpu" ∨ instanceType code = "local") ∧
      (instanceType code = "local_gpu" ↔ code = 0) := by
  intro code
  constructor
  · unfold instanceType
    split
    · exact Or.inl rfl
    · exact Or.inr rfl
  · constructor
    · intro hgpu
      by_contra hne
      rw [instanceType, if_neg hne] at hgpu
      exact absurd hgpu (by decide)
    · intro h0
      rw [instanceType, if_pos h0]

/-- C9: the S3 URI for the output artifacts is computed from the
model-artifact URI by replacing every occurrence of the substring `'model'`
(Python `str.replace`), not only the final path component: for a URI built
from arbitrarily many `'model'`-free pieces joined by `'model'` — so with
`'model'` occurring in the bucket name, the prefix, the job name, anywhere —
every occurrence is rewritten to `'output'`. -/
theorem c9_output_data_replaces_every_occurrence :
    ∀ (parts : List (List Char)), (∀ p ∈ parts, 'm' ∉ p) →
      outputDataOf (joinSep modelPat parts) = joinSep outputRep parts := by
  intro parts
  induction parts with
  | nil =>
    intro _
    rw [joinSep, joinSep, outputDataOf, replaceModel]
  | cons p ps ih =>
    intro h
    cases ps with
    | nil =>
      rw [joinSep, joinSep, outputDataOf]
      exact replaceModel_of_not_mem (h p (List.mem_cons_self _ _))
    | cons q ps' =>
      have hstep : joinSep modelPat (p :: q :: ps') =
          p ++ modelPat ++ joinSep modelPat (q :: ps') := rfl
      have hstep2 : joinSep outputRep (p :: q :: ps') =
          p ++ outputRep ++ joinSep outputRep (q :: ps') := rfl
      rw [hstep, hstep2, outputDataOf,
        replaceModel_append _ p (h p (List.mem_cons_self _ _))]
      have ihq := ih (fun r hr => h r (List.mem_cons.mpr (Or.inr hr)))
      rw [outputDataOf] at ihq
      rw [ihq]

/-- Witness for C9 at a concrete model-artifact URI with `'model'` in the
bucket name and in the job path: both occurrences are rewritten. -/
theorem c9_witness :
    outputDataOf ("s3://model-bucket/chainer-model/output.tar.gz".toList) =
      "s3://output-bucket/chainer-output/output.tar.gz".toList := by
  have h := c9_output_data_replaces_every_occurrence
    ["s3://".toList, "-bucket/chainer-".toList, "/output.tar.gz".toList] (by decide)
  have e1 : joinSep modelPat ["s3://".toList, "-bucket/chainer-".toList, "/output.tar.gz".toList] =
      "s3://model-bucket/chainer-model/output.tar.gz".toList := by decide
  have e2 : joinSep outputRep ["s3://".toList, "-bucket/chainer-".toList, "/output.tar.gz".toList] =
      "s3://output-bucket/chainer-output/output.tar.gz".toList := by decide
  rw [e1, e2] at h
  exact h

/-- C10: the five test-image indices of cell-21 are pairwise distinct and
each lies in `[0, numTestImages - 1)`, so the final test image is never
selected; `random.sample` requires `numTestImages - 1 ≥ 5` and raises
`ValueError` otherwise. -/
theorem c10_sample_indices :
    ∀ (n : Nat) (choice : Nat → Nat),
      (5 ≤ n - 1 →
        ∃ l, sampleTestIndices n choice = .ok l ∧
          l.length = 5 ∧ l.Nodup ∧ ∀ x ∈ l, x < n - 1) ∧
      (n - 1 < 5 → sampleTestIndices n choice = .error .valueError) := by
  intro n choice
  constructor
  · intro h5
    have hlen : (List.range (n - 1)).length = n - 1 := List.length_range _
    have hcond : ¬ (List.range (n - 1)).length < 5 := by
      rw [hlen]; omega
    refine ⟨sampleAux choice 5 (List.range (n - 1)), ?_, ?_, ?_, ?_⟩
    · rw [sampleTestIndices, pySample, if_neg hcond]
    · exact sampleAux_length choice 5 _ (by rw [hlen]; omega)
    · exact sampleAux_nodup choice 5 _ (List.nodup_range _)
    · intro x hx
      exact List.mem_range.mp (sampleAux_subset choice 5 _ x hx)
  · intro h5
    have hcond : (List.range (n - 1)).length < 5 := by
      rw [List.length_range]; omega
    rw [sampleTestIndices, pySample, if_pos hcond]

/-- Witness for C10: with ten test images the sampling succeeds with five
distinct in-range indices, and with three test images it raises
`ValueError`. -/
theorem c10_witness :
    (∃ l, sampleTestIndices 10 zeroChoice = .ok l ∧
      l.length = 5 ∧ l.Nodup ∧ ∀ x ∈ l, x < 10 - 1) ∧
    sampleTestIndices 3 zeroChoice = .error .valueError :=
  ⟨(c10_sample_indices 10 zeroChoice).1 (by decide),
   (c10_sample_indices 3 zeroChoice).2 (by decide)⟩

end ChainerMnist
